import Mathlib

/-!
Shallow embedding of the push-transport session in src/push.rs.

The Rust layer is a thin wrapper over the libgit2 transport: every
operation forwards to a raw call and turns a negative return code into an
error.  The transport itself is an external collaborator, so its outcomes
(return codes, the stream of per-reference status reports) appear here as
explicit inputs to the embedded functions; the logic that the sources do
contain — the UTF-8 decoding callback, the accumulator protocol, the
absence of any state checks — is translated directly.
-/

/-- Raw bytes crossing the C boundary, each value below 256. -/
abbrev Bytes := List Nat

/-- Strict UTF-8 decoding of a byte sequence into scalar values, mirroring
Rust `str::from_utf8`: rejects stray continuation bytes, overlong forms,
surrogate code points, values above 0x10FFFF, and truncated sequences. -/
def utf8Decode : Bytes → Option (List Nat)
  | [] => some []
  | b0 :: rest =>
    if b0 < 0x80 then
      (utf8Decode rest).map (b0 :: ·)
    else if b0 < 0xC2 then
      none
    else if b0 ≤ 0xDF then
      match rest with
      | b1 :: rest2 =>
        if 0x80 ≤ b1 ∧ b1 ≤ 0xBF then
          (utf8Decode rest2).map (((b0 - 0xC0) * 64 + (b1 - 0x80)) :: ·)
        else none
      | [] => none
    else if b0 ≤ 0xEF then
      match rest with
      | b1 :: b2 :: rest2 =>
        if (if b0 = 0xE0 then 0xA0 else 0x80) ≤ b1 ∧
            b1 ≤ (if b0 = 0xED then 0x9F else 0xBF) ∧
            0x80 ≤ b2 ∧ b2 ≤ 0xBF then
          (utf8Decode rest2).map
            (((b0 - 0xE0) * 4096 + (b1 - 0x80) * 64 + (b2 - 0x80)) :: ·)
        else none
      | _ => none
    else if b0 ≤ 0xF4 then
      match rest with
      | b1 :: b2 :: b3 :: rest2 =>
        if (if b0 = 0xF0 then 0x90 else 0x80) ≤ b1 ∧
            b1 ≤ (if b0 = 0xF4 then 0x8F else 0xBF) ∧
            0x80 ≤ b2 ∧ b2 ≤ 0xBF ∧ 0x80 ≤ b3 ∧ b3 ≤ 0xBF then
          (utf8Decode rest2).map
            (((b0 - 0xF0) * 262144 + (b1 - 0x80) * 4096 +
              (b2 - 0x80) * 64 + (b3 - 0x80)) :: ·)
        else none
      | _ => none
    else none

/-- Decode a byte sequence as a Lean `String`, the embedding of a
successful `str::from_utf8` followed by `to_string`. -/
def utf8DecodeStr (b : Bytes) : Option String :=
  (utf8Decode b).map fun cs => String.mk (cs.map Char.ofNat)

/-- UTF-8 bytes of an ASCII string, used to build concrete transport
reports in examples. -/
def asciiBytes (s : String) : Bytes :=
  s.data.map Char.toNat

/-- Error values distinguishable by this layer.  `raw` wraps a negative
transport return code surfaced through `try_call!`; `invalidState` is the
state-machine error named by the specification, which the sources never
construct. -/
inductive GitError
  | invalidState
  | raw (code : Int)
deriving DecidableEq

/-- A status representing the result of updating a remote reference
(src/push.rs, `PushStatus`). -/
structure PushStatus where
  reference : String
  message : Option String
deriving DecidableEq

/-- Session-visible state behind the raw `git_push` pointer: the ordered
refspec set accumulated in the native context and whether `finish`
(execute) has succeeded.  The Rust struct holds only the pointer; this is
the state the transport keeps behind it. -/
structure PushSession where
  refspecs : List String
  finished : Bool
deriving DecidableEq

/-- An opaque signing identity, an external input treated opaquely by
this core. -/
structure Signature where
  name : String
  email : String
deriving DecidableEq

/-- Modelled from the spec: the `try_call!` macro (repository code outside
the sources at hand) turns a negative libgit2 return code into an error
result and lets any other value through. -/
def try_call (code : Int) : Except GitError Int :=
  if code < 0 then .error (.raw code) else .ok code

/-- The status callback of `Push::statuses` (src/push.rs lines 72–93).
It decodes the reference name; on decode failure it returns 0 without
touching the accumulator.  It then decodes the message when one is
present (a null pointer is modelled as `none`), again returning 0 on
decode failure.  Otherwise it appends the entry and returns 0.  The first
component is the continuation code handed back to the transport, the
second the updated accumulator. -/
def cb (git_ref : Bytes) (msg : Option Bytes) (data : List PushStatus) :
    Int × List PushStatus :=
  match utf8DecodeStr git_ref with
  | none => (0, data)
  | some r =>
    match msg with
    | some mbytes =>
      match utf8DecodeStr mbytes with
      | none => (0, data)
      | some m => (0, data ++ [{ reference := r, message := some m }])
    | none => (0, data ++ [{ reference := r, message := none }])

/-- Modelled from the spec: `git_push_status_foreach` is transport-layer
code outside the sources.  Per the specification of the callback
protocol, it invokes the handler once per reference the remote reported
on, in report order, and expects a continuation signal back: a non-zero
return aborts the enumeration with a user-abort error code, zero
continues.  `finalCode` is the code the transport itself returns at the
end of a completed pass (0 on success, negative on a transport
failure). -/
def git_push_status_foreach (entries : List (Bytes × Option Bytes))
    (finalCode : Int) (data : List PushStatus) : Int × List PushStatus :=
  match entries with
  | [] => (finalCode, data)
  | (r, m) :: rest =>
    let c := cb r m data
    if c.1 = 0 then git_push_status_foreach rest finalCode c.2
    else (-8, c.2)

/-- `Push::statuses` (src/push.rs lines 63–70): builds a fresh empty
vector, runs the transport status enumeration with `cb` accumulating into
it, and returns the vector only when the enumeration reports success —
`try_call!` turns a negative return into an error, discarding whatever
was accumulated.  The wrapper reads nothing from the session value; the
entries and the final code are the transport inputs. -/
def statuses (p : PushSession) (entries : List (Bytes × Option Bytes))
    (finalCode : Int) : Except GitError (List PushStatus) :=
  let ret : List PushStatus := []
  let r := git_push_status_foreach entries finalCode ret
  match try_call r.1 with
  | .error e => .error e
  | .ok _ => .ok r.2

/-- Modelled from the spec: `git_push_add_refspec` is transport-layer
code outside the sources.  Per the spec it appends the refspec to the
ordered pending set kept in the native context, rejecting only malformed
syntax; its return code is the `rawCode` input. -/
def git_push_add_refspec (p : PushSession) (refspec : String)
    (rawCode : Int) : Int × PushSession :=
  (rawCode, if rawCode < 0 then p
            else { p with refspecs := p.refspecs ++ [refspec] })

/-- `Push::add_refspec` (src/push.rs lines 29–35): converts the refspec
string and forwards it to `git_push_add_refspec` through `try_call!`.
The wrapper performs no state inspection of its own — it never looks at
whether the session has executed. -/
def add_refspec (p : PushSession) (refspec : String) (rawCode : Int) :
    Except GitError PushSession :=
  let r := git_push_add_refspec p refspec rawCode
  match try_call r.1 with
  | .error e => .error e
  | .ok _ => .ok r.2

/-- `Push::finish` (src/push.rs lines 43–48): forwards to
`git_push_finish` through `try_call!`; on transport success the session
has executed. -/
def finish (p : PushSession) (rawCode : Int) : Except GitError PushSession :=
  match try_call rawCode with
  | .error e => .error e
  | .ok _ => .ok { p with finished := true }

/-- `Push::update_tips` (src/push.rs lines 51–60): forwards the optional
signature and reflog message to `git_push_update_tips` through
`try_call!`.  The effect on local tracking references lives outside the
session state modelled here; the wrapper performs no state inspection of
its own and returns the session unchanged on transport success. -/
def update_tips (p : PushSession) (sig : Option Signature)
    (reflog_message : Option String) (rawCode : Int) :
    Except GitError PushSession :=
  match try_call rawCode with
  | .error e => .error e
  | .ok _ => .ok p

/-- The per-entry outcome of one callback invocation: `none` when the
entry is dropped because a field failed to decode, otherwise the
`PushStatus` the callback appends. -/
def decodeEntry (q : Bytes × Option Bytes) : Option PushStatus :=
  match utf8DecodeStr q.1 with
  | none => none
  | some r =>
    match q.2 with
    | some mbytes =>
      match utf8DecodeStr mbytes with
      | none => none
      | some m => some { reference := r, message := some m }
    | none => some { reference := r, message := none }

/-- Whether a result is the `InvalidState` error named by the
specification. -/
def isInvalidStateE {α : Type} : Except GitError α → Bool
  | .error GitError.invalidState => true
  | _ => false

theorem cb_eq (r : Bytes) (m : Option Bytes) (data : List PushStatus) :
    cb r m data = (0, data ++ (decodeEntry (r, m)).toList) := by
  unfold cb decodeEntry
  rcases h1 : utf8DecodeStr r with _ | s
  · simp [h1]
  · rcases m with _ | mb
    · simp [h1]
    · rcases h2 : utf8DecodeStr mb with _ | t <;> simp [h1, h2]

theorem foreach_spec (entries : List (Bytes × Option Bytes))
    (finalCode : Int) (data : List PushStatus) :
    git_push_status_foreach entries finalCode data =
      (finalCode, data ++ entries.filterMap decodeEntry) := by
  induction entries generalizing data with
  | nil => simp [git_push_status_foreach]
  | cons q rest ih =>
    obtain ⟨r, m⟩ := q
    rw [git_push_status_foreach]
    simp only [cb_eq, ih]
    rcases h : decodeEntry (r, m) with _ | e <;>
      simp [List.filterMap_cons, h]

theorem statuses_spec (p : PushSession)
    (entries : List (Bytes × Option Bytes)) (finalCode : Int) :
    statuses p entries finalCode =
      if finalCode < 0 then .error (.raw finalCode)
      else .ok (entries.filterMap decodeEntry) := by
  unfold statuses try_call
  simp only [foreach_spec]
  by_cases h : finalCode < 0 <;> simp [h]

theorem filterMap_length_countP {α β : Type} (f : α → Option β)
    (l : List α) :
    (l.filterMap f).length = l.countP (fun a => (f a).isSome) := by
  induction l with
  | nil => simp
  | cons a l ih =>
    rcases h : f a with _ | b <;>
      simp [List.filterMap_cons, List.countP_cons, h, ih]

theorem filterMap_length_all_isSome {α β : Type} (f : α → Option β)
    (l : List α) (h : ∀ a ∈ l, (f a).isSome) :
    (l.filterMap f).length = l.length := by
  induction l with
  | nil => simp
  | cons a l ih =>
    rcases hfa : f a with _ | b
    · have ha := h a (by simp)
      rw [hfa] at ha
      simp at ha
    · simp [List.filterMap_cons, hfa,
        ih fun x hx => h x (by simp [hx])]

theorem filterMap_getElem_all_isSome {α β : Type} (f : α → Option β)
    (l : List α) (h : ∀ a ∈ l, (f a).isSome) (i : Nat) :
    (l.filterMap f)[i]? = l[i]?.bind f := by
  induction l generalizing i with
  | nil => simp
  | cons a l ih =>
    rcases hfa : f a with _ | b
    · have ha := h a (by simp)
      rw [hfa] at ha
      simp at ha
    · rcases i with _ | i <;>
        simp [List.filterMap_cons, hfa,
          ih (fun x hx => h x (by simp [hx]))]

/-- A sample transport report in which every field decodes: two
references, the second carrying a message. -/
def sampleEntries : List (Bytes × Option Bytes) :=
  [(asciiBytes "a", none), (asciiBytes "b", some (asciiBytes "m"))]

/-- Modelled from the spec: the transport report produced by the
round-trip scenario — pushing refspec
refs/heads/master:refs/heads/master to a freshly initialized empty
remote repository (the repository plumbing and the transfer live outside
the sources at hand).  The remote reports on exactly that one reference
and accepts it, so the message pointer is null. -/
def smokeReport : List (Bytes × Option Bytes) :=
  [(asciiBytes "refs/heads/master", none)]

/-- Claim C1 (counterexample): the claim says a UTF-8 decode failure
aborts the whole collection pass — the handler signals the transport to
stop and the result omits the unreadable entry and every later entry.  At
the concrete report below the first entry has an undecodable reference
name, yet the handler returns 0 (the continue signal of the callback
protocol) and the returned sequence still contains the entry reported
after it. -/
theorem c1_counterexample :
    (cb [0xFF] none []).1 = 0 ∧
    statuses { refspecs := [], finished := true }
        [([0xFF], none), (asciiBytes "ok", none)] 0 =
      .ok [{ reference := "ok", message := none }] :=
  ⟨rfl, rfl⟩

/-- Claim C1 (amended): when UTF-8 decoding of either field fails for a
reported entry, the handler returns the continue signal (0), so only the
unreadable entry is omitted: the collection pass continues and returns
every decodable entry, in report order. -/
theorem c1_amended_skip_and_continue (r : Bytes) (m : Option Bytes)
    (data : List PushStatus) (p : PushSession)
    (entries : List (Bytes × Option Bytes)) :
    (cb r m data).1 = 0 ∧
    statuses p entries 0 = .ok (entries.filterMap decodeEntry) := by
  constructor
  · rw [cb_eq]
  · simp [statuses_spec]

/-- Claim C3 (counterexample): the claim says that on a session no
longer in the Open state, add_refspec appends nothing and fails with
InvalidState.  On the concrete executed session below, with the
transport accepting the refspec, add_refspec succeeds and appends. -/
theorem c3_counterexample :
    add_refspec { refspecs := [], finished := true }
        "refs/heads/a:refs/heads/a" 0 =
      .ok { refspecs := ["refs/heads/a:refs/heads/a"], finished := true } :=
  rfl

/-- Claim C3 (amended): add_refspec performs no state check — in every
session state it forwards the refspec to the transport, its outcome does
not depend on whether the session has executed, and it never fails with
InvalidState. -/
theorem c3_amended_no_state_check (rs : List String) (b c : Bool)
    (spec : String) (rc : Int) :
    isInvalidStateE (add_refspec ⟨rs, b⟩ spec rc) = false ∧
    add_refspec ⟨rs, b⟩ spec rc =
      (add_refspec ⟨rs, c⟩ spec rc).map fun q => ⟨q.refspecs, b⟩ := by
  by_cases h : rc < 0 <;>
    simp [add_refspec, git_push_add_refspec, try_call, isInvalidStateE, h,
      Except.map]

/-- Claim C4 (counterexample): the claim says that on a session on which
execute has not been called, collect_statuses (statuses) and update_tips
fail with InvalidState.  On the concrete unexecuted session below, with
the transport reporting an empty status list and returning success (the
native status vector is empty before finish), both calls succeed. -/
theorem c4_counterexample :
    ({ refspecs := [], finished := false } : PushSession).finished
        = false ∧
    statuses { refspecs := [], finished := false } [] 0 = .ok [] ∧
    update_tips { refspecs := [], finished := false } none none 0 =
      .ok { refspecs := [], finished := false } :=
  ⟨rfl, rfl, rfl⟩

/-- Claim C4 (amended): neither statuses nor update_tips performs a
pre-execute state check — both forward to the transport whether or not
execute has been called, their outcome does not depend on the executed
flag, and neither ever fails with InvalidState from this layer. -/
theorem c4_amended_no_state_check (p : PushSession)
    (entries : List (Bytes × Option Bytes)) (finalCode : Int)
    (sig : Option Signature) (msg : Option String) (rc : Int) :
    statuses p entries finalCode =
      statuses { refspecs := p.refspecs, finished := true }
        entries finalCode ∧
    isInvalidStateE (statuses p entries finalCode) = false ∧
    isInvalidStateE (update_tips p sig msg rc) = false := by
  refine ⟨by simp [statuses_spec], ?_, ?_⟩
  · rw [statuses_spec]
    by_cases h : finalCode < 0 <;> simp [h, isInvalidStateE]
  · unfold update_tips try_call
    by_cases h : rc < 0 <;> simp [h, isInvalidStateE]

/-- Claim C5 (counterexample): the claim says the i-th reported entry
appears at position i of the returned list for every sequence of
callback invocations.  In the concrete report below the first reported
entry has an undecodable reference name: position 0 of the result holds
the second reported entry instead. -/
theorem c5_counterexample :
    statuses { refspecs := [], finished := false }
        [([0xFF], none), (asciiBytes "ok", none)] 0 =
      .ok [{ reference := "ok", message := none }] ∧
    utf8DecodeStr [0xFF] = none :=
  ⟨rfl, by decide⟩

/-- Claim C5 (amended): when every reported entry decodes, the returned
list has one entry per callback invocation and the i-th reported entry
appears, decoded, at position i; in general the result is the
order-preserving subsequence of the decodable entries. -/
theorem c5_amended_order_preserved (p : PushSession)
    (entries : List (Bytes × Option Bytes))
    (h : ∀ q ∈ entries, (decodeEntry q).isSome) :
    ∃ l, statuses p entries 0 = .ok l ∧ l.length = entries.length ∧
      ∀ i : Nat, l[i]? = entries[i]?.bind decodeEntry := by
  refine ⟨entries.filterMap decodeEntry, by simp [statuses_spec],
    filterMap_length_all_isSome _ _ h,
    fun i => filterMap_getElem_all_isSome _ _ h i⟩

/-- Witness for claim C5 at a concrete two-entry report in which every
field decodes. -/
theorem c5_amended_witness :
    ∃ l, statuses { refspecs := [], finished := true } sampleEntries 0 =
        .ok l ∧
      l.length = sampleEntries.length ∧
      ∀ i : Nat, l[i]? = sampleEntries[i]?.bind decodeEntry :=
  c5_amended_order_preserved { refspecs := [], finished := true }
    sampleEntries (by decide)

/-- Claim C6 (counterexample): the claim says the returned length equals
the number of callback invocations.  In the concrete report below the
transport makes one callback invocation, whose reference name fails to
decode, and the returned sequence is empty. -/
theorem c6_counterexample :
    statuses { refspecs := [], finished := true } [([0xFF], none)] 0 =
      .ok [] ∧
    ([([0xFF], none)] : List (Bytes × Option Bytes)).length = 1 :=
  ⟨rfl, rfl⟩

/-- Claim C6 (amended): the returned length equals the number of callback
invocations in which both fields decoded as UTF-8 — which is the number
of invocations whenever every reported entry is well-formed, and may be
less than the number of refspecs submitted. -/
theorem c6_amended_length (p : PushSession)
    (entries : List (Bytes × Option Bytes)) :
    ∃ l, statuses p entries 0 = .ok l ∧
      l.length = entries.countP fun q => (decodeEntry q).isSome :=
  ⟨entries.filterMap decodeEntry, by simp [statuses_spec],
    filterMap_length_countP _ _⟩

/-- Claim C7: status collection is a snapshot — each call runs a fresh
pass starting from a fresh empty accumulator and reads nothing from the
session, so two collection passes that see the same transport report
return equal results: the result is determined by the report alone (it is
the same for any two session values), and a successful pass returns
exactly the decodable entries of the report. -/
theorem c7_snapshot_collection (p q : PushSession)
    (entries : List (Bytes × Option Bytes)) (finalCode : Int) :
    statuses p entries finalCode = statuses q entries finalCode ∧
    statuses p entries 0 = .ok (entries.filterMap decodeEntry) := by
  simp [statuses_spec]

theorem decodeEntry_char (r : Bytes) (m : Option Bytes) (e : PushStatus)
    (h : decodeEntry (r, m) = some e) :
    utf8DecodeStr r = some e.reference ∧
      ((m = none ∧ e.message = none) ∨
        (∃ mb s, m = some mb ∧ utf8DecodeStr mb = some s ∧
          e.message = some s)) := by
  unfold decodeEntry at h
  dsimp only at h
  rcases h1 : utf8DecodeStr r with _ | s <;> rw [h1] at h <;>
    dsimp only at h
  · simp at h
  · rcases m with _ | mb <;> dsimp only at h
    · injection h with h3
      subst h3
      exact ⟨rfl, Or.inl ⟨rfl, rfl⟩⟩
    · rcases h2 : utf8DecodeStr mb with _ | t <;> rw [h2] at h <;>
        dsimp only at h
      · simp at h
      · injection h with h3
        subst h3
        exact ⟨rfl, Or.inr ⟨mb, t, rfl, h2, rfl⟩⟩

/-- Claim C8: every entry produced by a successful collection pass comes
from a reported entry; its reference is the decoded reference name, its
message is absent exactly when the transport reported a null message, and
when the transport reported one the message is its decoded bytes,
verbatim. -/
theorem c8_message_faithful (p : PushSession)
    (entries : List (Bytes × Option Bytes)) (l : List PushStatus)
    (h : statuses p entries 0 = .ok l) (e : PushStatus) (he : e ∈ l) :
    ∃ r m, (r, m) ∈ entries ∧ utf8DecodeStr r = some e.reference ∧
      ((m = none ∧ e.message = none) ∨
        (∃ mb s, m = some mb ∧ utf8DecodeStr mb = some s ∧
          e.message = some s)) := by
  rw [statuses_spec] at h
  simp only [show ¬((0 : Int) < 0) by decide, if_false, Except.ok.injEq]
    at h
  subst h
  obtain ⟨⟨r, m⟩, hq, hdec⟩ := List.mem_filterMap.mp he
  obtain ⟨hr, hm⟩ := decodeEntry_char r m e hdec
  exact ⟨r, m, hq, hr, hm⟩

/-- Witness for claim C8 at a concrete report whose second entry carries
a message. -/
theorem c8_witness :
    ∃ r m, (r, m) ∈ sampleEntries ∧ utf8DecodeStr r = some "b" ∧
      ((m = none ∧ (some "m" : Option String) = none) ∨
        (∃ mb s, m = some mb ∧ utf8DecodeStr mb = some s ∧
          (some "m" : Option String) = some s)) :=
  c8_message_faithful { refspecs := [], finished := true } sampleEntries
    [{ reference := "a", message := none },
     { reference := "b", message := some "m" }]
    rfl { reference := "b", message := some "m" } (by decide)

/-- Claim C9: for the round-trip scenario against a freshly initialized
empty remote (transport report modelled from the spec as smokeReport),
collecting statuses after a successful execute yields exactly one entry
whose reference is refs/heads/master and whose message is None. -/
theorem c9_round_trip :
    statuses { refspecs := ["refs/heads/master:refs/heads/master"],
               finished := true } smokeReport 0 =
      .ok [{ reference := "refs/heads/master", message := none }] :=
  rfl

/-- Claim C10: when the status-enumeration operation itself fails (a
negative transport return code), statuses returns an error and no list —
everything the callback accumulated during the pass is discarded rather
than returned. -/
theorem c10_no_partial_on_failure (p : PushSession)
    (entries : List (Bytes × Option Bytes)) (code : Int)
    (h : code < 0) :
    statuses p entries code = .error (.raw code) := by
  rw [statuses_spec, if_pos h]

/-- Witness for claim C10: a failing pass over a report with one
decodable entry still returns only the error. -/
theorem c10_witness :
    ((-1 : Int) < 0) ∧
    statuses { refspecs := [], finished := true }
        [(asciiBytes "a", none)] (-1) = .error (.raw (-1)) :=
  ⟨by decide,
    c10_no_partial_on_failure { refspecs := [], finished := true }
      [(asciiBytes "a", none)] (-1) (by decide)⟩
